import Mathlib

/-!
Verification of the ryujin convex limiter core (`ryujin::Euler::Limiter`,
`src/source/navier_stokes/instantiate.h`) and of the strategy dispatch of
`ryujin::MeshAdaptor` (`src/unnamed/part_002`).

The working numeric type `Number` is modelled by the real numbers `ℝ`;
`std::numeric_limits<double>::max()` and machine epsilon become explicit
real constants.  `AssertThrow(false, ...); __builtin_trap()` paths are
modelled by `Option`/sum outcomes: `none` (or an `abort`-style
constructor) marks the aborting control path.
-/

namespace Ryujin

/-! ### Hyperbolic state algebra -/

/-- A conserved state for the `dim`-dimensional Euler equations:
density, momentum components, total energy. -/
structure EulerState (dim : ℕ) where
  rho : ℝ
  mom : Fin dim → ℝ
  energy : ℝ

/-- `hyperbolic_system.density(U)`: the first state component. -/
def density {d : ℕ} (U : EulerState d) : ℝ := U.rho

/-- `hyperbolic_system.momentum(U)`: the momentum components. -/
def momentum {d : ℕ} (U : EulerState d) : Fin d → ℝ := U.mom

/-- Componentwise sum `U + V` of two conserved states. -/
def stateAdd {d : ℕ} (U V : EulerState d) : EulerState d :=
  ⟨U.rho + V.rho, fun k => U.mom k + V.mom k, U.energy + V.energy⟩

/-- Componentwise scaling `U * c` of a conserved state. -/
def stateScale {d : ℕ} (U : EulerState d) (c : ℝ) : EulerState d :=
  ⟨U.rho * c, fun k => U.mom k * c, U.energy * c⟩

/-- The `dealii::Tensor` dot product used in `(m_i - m_j) * scaled_c_ij`. -/
noncomputable def tensorDot {d : ℕ} (a b : Fin d → ℝ) : ℝ :=
  ∑ k, a k * b k

/-- The part of `HyperbolicSystem::View` the limiter consumes: the
equation-of-state dependent specific entropy (external per the spec;
density and momentum are structural accessors above). -/
structure HyperbolicSystemView (dim : ℕ) where
  specific_entropy : EulerState dim → ℝ

/-- `std::numeric_limits<double>::max()` as an exact real constant:
`(2^53 - 1) * 2^971`. -/
noncomputable def scalarMax : ℝ := (2 ^ 53 - 1) * 2 ^ 971

/-- `std::numeric_limits<double>::epsilon()` as an exact real constant:
`2^(-52)`. -/
noncomputable def machineEps : ℝ := 1 / 2 ^ 52

/-! ### Limiter bounds and accumulator state -/

/-- The bounds triple `{rho_min, rho_max, s_min}` (`Limiter::Bounds`,
an array of three `Number`s, given named fields here). -/
structure Bounds where
  rho_min : ℝ
  rho_max : ℝ
  s_min : ℝ

/-- The mutable members of `Limiter`: the bounds array and the three
relaxation temporaries. -/
structure LimiterState where
  bounds_ : Bounds
  rho_relaxation_numerator : ℝ
  rho_relaxation_denominator : ℝ
  s_interp_max : ℝ

/-- `Limiter::reset(i)`: `rho_min = numeric_limits<ScalarNumber>::max()`,
`rho_max = 0`, `s_min = s_i` where `(s_i, eta_i)` is the precomputed pair
at node `i`, and the three relaxation temporaries are zeroed.  The
precomputed value table is the function `pre`. -/
noncomputable def reset (pre : ℕ → ℝ × ℝ) (i : ℕ) : LimiterState :=
  { bounds_ := { rho_min := scalarMax, rho_max := 0, s_min := (pre i).1 }
    rho_relaxation_numerator := 0
    rho_relaxation_denominator := 0
    s_interp_max := 0 }

/-- The arguments of one `Limiter::accumulate` call: neighbor index `js`,
the two states, the scaled geometric edge coefficient `c_ij`, and the
graph-viscosity weight `beta_ij`.  (The unused `flux_i`/`flux_j`
parameters of the source signature are omitted.) -/
structure AccumulateArgs (dim : ℕ) where
  js : ℕ
  U_i : EulerState dim
  U_j : EulerState dim
  scaled_c_ij : Fin dim → ℝ
  beta_ij : ℝ

/-- The symmetrized edge density estimate of `Limiter::accumulate`:
`rho_ij_bar = 0.5 * (rho_i + rho_j + (m_i - m_j) * scaled_c_ij)`. -/
noncomputable def rho_ij_bar {d : ℕ} (a : AccumulateArgs d) : ℝ :=
  (1 / 2) *
    (density a.U_i + density a.U_j +
      tensorDot (fun k => momentum a.U_i k - momentum a.U_j k) a.scaled_c_ij)

/-- `Limiter::accumulate`: widen `rho_min`/`rho_max` by `rho_ij_bar`,
lower `s_min` by the neighbor's precomputed entropy `s_j`, accumulate
the weighted density sum and absolute-weight sum, and track the maximal
specific entropy of the edge midpoint state `(U_i + U_j) * 0.5`. -/
noncomputable def accumulate {d : ℕ} (hs : HyperbolicSystemView d)
    (pre : ℕ → ℝ × ℝ) (st : LimiterState) (a : AccumulateArgs d) :
    LimiterState :=
  { bounds_ :=
      { rho_min := min st.bounds_.rho_min (rho_ij_bar a)
        rho_max := max st.bounds_.rho_max (rho_ij_bar a)
        s_min := min st.bounds_.s_min (pre a.js).1 }
    rho_relaxation_numerator :=
      st.rho_relaxation_numerator + a.beta_ij * (density a.U_i + density a.U_j)
    rho_relaxation_denominator :=
      st.rho_relaxation_denominator + |a.beta_ij|
    s_interp_max :=
      max st.s_interp_max
        (hs.specific_entropy (stateScale (stateAdd a.U_i a.U_j) (1 / 2))) }

/-- Folding a list of `accumulate` calls over a starting state (the
stencil loop between `reset` and `apply_relaxation`). -/
noncomputable def runAccumulate {d : ℕ} (hs : HyperbolicSystemView d)
    (pre : ℕ → ℝ × ℝ) (st : LimiterState) (l : List (AccumulateArgs d)) :
    LimiterState :=
  l.foldl (accumulate hs pre) st

/-- The relaxation radius of `Limiter::apply_relaxation`:
`r_i = sqrt(hd_i)`, cubed after a further square root when `dim == 2`,
cubed directly when `dim == 1`, then multiplied by `factor`. -/
noncomputable def relaxation_r (d : ℕ) (hd factor : ℝ) : ℝ :=
  let r0 := Real.sqrt hd
  let r1 :=
    if d = 2 then (Real.sqrt r0) ^ 3
    else if d = 1 then r0 ^ 3
    else r0
  r1 * factor

/-- The epsilon-guarded denominator of the relaxation magnitude:
`abs(rho_relaxation_denominator) + eps`. -/
noncomputable def relaxationDenominator (st : LimiterState) : ℝ :=
  |st.rho_relaxation_denominator| + machineEps

/-- The relaxation magnitude:
`abs(rho_relaxation_numerator) / (abs(rho_relaxation_denominator) + eps)`. -/
noncomputable def rho_relaxation (st : LimiterState) : ℝ :=
  |st.rho_relaxation_numerator| / relaxationDenominator st

/-- `Limiter::apply_relaxation(hd_i, factor)`: widen the bounds by the
relaxation radius and magnitude. -/
noncomputable def apply_relaxation (d : ℕ) (st : LimiterState)
    (hd factor : ℝ) : LimiterState :=
  let r_i := relaxation_r d hd factor
  let relax := rho_relaxation st
  { st with
    bounds_ :=
      { rho_min :=
          max ((1 - r_i) * st.bounds_.rho_min)
            (st.bounds_.rho_min - 2 * relax)
        rho_max :=
          min ((1 + r_i) * st.bounds_.rho_max)
            (st.bounds_.rho_max + 2 * relax)
        s_min :=
          max ((1 - r_i) * st.bounds_.s_min)
            (2 * st.bounds_.s_min - st.s_interp_max) } }

/-- `Limiter::bounds()`: read-only accessor. -/
def bounds (st : LimiterState) : Bounds := st.bounds_

/-- `Limiter::is_in_invariant_domain`: the source body is
`AssertThrow(false, dealii::ExcNotImplemented()); __builtin_trap();
return true;` — it unconditionally raises the assertion and traps on
every input, never reaching the `return`.  `none` models the aborting
path; `some b` would model a returned boolean. -/
def is_in_invariant_domain {d : ℕ} (_hs : HyperbolicSystemView d)
    (_bounds : Bounds) (_U : EulerState d) : Option Bool :=
  none

/-! ### The convex limiter `Limiter::limit` -/

/-- Modelled from the spec: the body of `Limiter::limit` is not among the
repository sources (only its declaration, `instantiate.h:197`).  Per
§4.2 the entropy function is
`Psi(t) = density(U + t P)^(gamma+1) * (specific_entropy(U + t P) - s_min)`. -/
noncomputable def Psi {d : ℕ} (hs : HyperbolicSystemView d) (gamma : ℝ)
    (s_min : ℝ) (U P : EulerState d) (t : ℝ) : ℝ :=
  density (stateAdd U (stateScale P t)) ^ (gamma + 1) *
    (hs.specific_entropy (stateAdd U (stateScale P t)) - s_min)

/-- Modelled from the spec: one safeguarded Newton step on a bracket
`(tL, tR)`: take a Newton step from `tR` (division guarded by an epsilon
floor); if it leaves the bracket, take a bisection step instead; update
the bracket from the sign of `Psi` at the new point (`Psi ≥ 0` is the
feasible side, kept on the left).  `dPsi` is the derivative of `Psi`,
whose closed form the spec leaves to the equation of state. -/
noncomputable def newtonStep (psi dPsi : ℝ → ℝ) (tL tR : ℝ) : ℝ × ℝ :=
  let t0 := tR - psi tR / (|dPsi tR| + machineEps)
  let t1 := if t0 < tL ∨ tR < t0 then (tL + tR) / 2 else t0
  if 0 ≤ psi t1 then (t1, tR) else (tL, t1)

open Classical in
/-- Modelled from the spec: the safeguarded Newton iteration of §4.2,
capped by the iteration budget, stopping when `abs Psi` falls below the
tolerance. -/
noncomputable def newtonLoop (psi dPsi : ℝ → ℝ) (tol : ℝ) :
    ℕ → ℝ × ℝ → ℝ × ℝ
  | 0, p => p
  | n + 1, p =>
      if |psi p.1| ≤ tol then p
      else newtonLoop psi dPsi tol n (newtonStep psi dPsi p.1 p.2)

open Classical in
/-- Modelled from the spec: `Limiter::limit` (§4.2).  Step 1 shrinks
`[t_min, t_max]` to the density-feasible sub-interval (density is affine
in `t`; divisions epsilon-guarded; an empty interval collapses to
`t_min`).  Step 2 runs the safeguarded Newton iteration on `Psi` and
returns the feasible left endpoint.  Step 3 clamps the result to
`[t_min, t_max]`.  The boolean reports whether the state at `t_min`
already satisfies the bounds (a diagnostic). -/
noncomputable def limit {d : ℕ} (hs : HyperbolicSystemView d) (gamma : ℝ)
    (b : Bounds) (U P : EulerState d) (dPsi : ℝ → ℝ)
    (newton_tolerance : ℝ) (newton_max_iter : ℕ)
    (t_min t_max : ℝ) : ℝ × Bool :=
  let rhoU := density U
  let rhoP := density P
  let hi :=
    if machineEps < rhoP then min t_max ((b.rho_max - rhoU) / rhoP)
    else if rhoP < -machineEps then min t_max ((b.rho_min - rhoU) / rhoP)
    else t_max
  let lo :=
    if machineEps < rhoP then max t_min ((b.rho_min - rhoU) / rhoP)
    else if rhoP < -machineEps then max t_min ((b.rho_max - rhoU) / rhoP)
    else t_min
  let tL := if hi < lo then t_min else lo
  let tR := if hi < lo then t_min else hi
  let psi := Psi hs gamma b.s_min U P
  let res := newtonLoop psi dPsi newton_tolerance newton_max_iter (tL, tR)
  let feasible :=
    if b.rho_min ≤ density (stateAdd U (stateScale P t_min)) ∧
        density (stateAdd U (stateScale P t_min)) ≤ b.rho_max ∧
        b.s_min ≤ hs.specific_entropy (stateAdd U (stateScale P t_min))
    then true else false
  (max t_min (min t_max res.1), feasible)

/-! ### Mesh adaptor strategy dispatch (`MeshAdaptor`) -/

/-- The adaptation strategies named by `MeshAdaptor`; `invalid v` models
any other underlying enum value (reaching the `default:` label). -/
inductive AdaptationStrategy where
  | global_refinement
  | random_adaptation
  | invalid (v : ℕ)

/-- The marking strategies named by `MeshAdaptor`. -/
inductive MarkingStrategy where
  | fixed_number
  | invalid (v : ℕ)

/-- The time-point selection strategies named by `MeshAdaptor`. -/
inductive TimePointSelectionStrategy where
  | fixed_adaptation_time_points
  | invalid (v : ℕ)

open Classical in
/-- `MeshAdaptor::prepare(t)`: with the fixed-time-points strategy,
erase the adaptation time points `t_refinement` with `t > t_refinement`;
for any other strategy value the `default:` label does nothing.  In both
cases the function then clears `need_mesh_adaptation_` and returns
normally (`some`); no branch aborts. -/
noncomputable def prepare (tps : TimePointSelectionStrategy) (t : ℝ)
    (pts : List ℝ) : Option (List ℝ × Bool) :=
  match tps with
  | .fixed_adaptation_time_points =>
      some (pts.filter (fun tr => decide ¬(t > tr)), false)
  | .invalid _ => some (pts, false)

open Classical in
/-- `MeshAdaptor::analyze`: with the fixed-time-points strategy, erase
every time point `t_refinement` with `¬(t < t_refinement)`, setting
`need_mesh_adaptation_` if any was erased; any other strategy value hits
`default: AssertThrow(false, ExcInternalError()); __builtin_trap();`,
modelled by `none`. -/
noncomputable def analyze (tps : TimePointSelectionStrategy) (t : ℝ)
    (pts : List ℝ) (need : Bool) : Option (List ℝ × Bool) :=
  match tps with
  | .fixed_adaptation_time_points =>
      some (pts.filter (fun tr => decide (t < tr)),
        need || pts.any (fun tr => decide ¬(t < tr)))
  | .invalid _ => none

/-- The control-flow outcome of
`MeshAdaptor::mark_cells_for_coarsening_and_refinement`. -/
inductive MarkOutcome where
  | refine_all
  | marked_fixed_number
  | abort
deriving DecidableEq

/-- `MeshAdaptor::mark_cells_for_coarsening_and_refinement`: the
`global_refinement` case marks every cell and returns early, never
reaching the marking switch; `random_adaptation` fills the indicators
and falls through to the marking switch, whose only recognized case is
`fixed_number`; each `default:` label asserts false and traps. -/
def mark_cells_for_coarsening_and_refinement (adp : AdaptationStrategy)
    (mrk : MarkingStrategy) : MarkOutcome :=
  match adp with
  | .global_refinement => .refine_all
  | .random_adaptation =>
      match mrk with
      | .fixed_number => .marked_fixed_number
      | .invalid _ => .abort
  | .invalid _ => .abort

/-! ### Concrete fixtures -/

/-- A concrete one-dimensional hyperbolic system view (entropy constantly
zero; the limiter accumulator treats it as an opaque function). -/
noncomputable def hs0 : HyperbolicSystemView 1 := ⟨fun _ => 0⟩

/-- A concrete precomputed value table: every node carries `(0, 0)`. -/
def pre0 : ℕ → ℝ × ℝ := fun _ => (0, 0)

/-- A concrete state with density `1` and momentum `0`. -/
noncomputable def U_a : EulerState 1 := ⟨1, fun _ => 0, 1⟩

/-- A concrete state with density `1` and momentum `1`. -/
noncomputable def U_b : EulerState 1 := ⟨1, fun _ => 1, 1⟩

/-- The scaled edge coefficient `0.5` in one dimension. -/
noncomputable def cHalf : Fin 1 → ℝ := fun _ => 1 / 2

/-- First accumulate call of the concrete scenario: states `(1, 0)` and
`(1, 1)`, edge coefficient `0.5`, graph-viscosity weight `1`. -/
noncomputable def acc1 : AccumulateArgs 1 := ⟨1, U_a, U_b, cHalf, 1⟩

/-- Second accumulate call of the concrete scenario: the same edge seen
with the states swapped. -/
noncomputable def acc2 : AccumulateArgs 1 := ⟨2, U_b, U_a, cHalf, 1⟩

/-- The concrete bounds triple `{0.9, 1.1, 2.0}` of the spec's scenario. -/
noncomputable def bounds0 : Bounds := ⟨9 / 10, 11 / 10, 2⟩

/-! ### Claims about the invariant-domain checker -/

/-- Claim C1: the spec requires `is_in_invariant_domain(bounds, U)` to
return the membership predicate and to be implemented completely.  The
source body is the stub `AssertThrow(false, ExcNotImplemented());
__builtin_trap();`: at the concrete bounds `{0.9, 1.1, 2.0}` and the
state with density `1` it takes the failed-assertion/trap path (`none`)
instead of returning a boolean. -/
theorem claim_C1_invariant_domain_check_aborts :
    is_in_invariant_domain hs0 bounds0 U_a = none := rfl

/-- Claim C2: the spec requires every core operation to raise no
exception.  `reset`, `accumulate`, `apply_relaxation` and `bounds` are
total functions of their inputs (their bodies contain no throwing
statement), but `is_in_invariant_domain` raises its failed assertion and
traps on every input, contradicting the claim. -/
theorem claim_C2_invariant_domain_check_raises {d : ℕ}
    (hs : HyperbolicSystemView d) (b : Bounds) (U : EulerState d) :
    is_in_invariant_domain hs b U = none := rfl

/-! ### Claims about `reset` -/

/-- Claim C5, counterexample: after `reset` the density lower bound is
`numeric_limits<ScalarNumber>::max()`, a finite value, not `+infinity`
as the claim states: embedded into the extended reals it is strictly
below the top element. -/
theorem claim_C5_reset_rho_min_finite :
    (reset pre0 0).bounds_.rho_min = scalarMax ∧
      ((scalarMax : ℝ) : EReal) < (⊤ : EReal) :=
  ⟨rfl, EReal.coe_lt_top _⟩

/-- Claim C5, amended: after `reset(i)` the bounds hold
`rho_min = numeric_limits<ScalarNumber>::max()` (the largest finite
value of the scalar type), `rho_max = 0`, `s_min` equals the precomputed
specific entropy at node `i`, and the three relaxation temporaries are
zero. -/
theorem claim_C5_reset_fields (pre : ℕ → ℝ × ℝ) (i : ℕ) :
    (reset pre i).bounds_.rho_min = scalarMax ∧
      (reset pre i).bounds_.rho_max = 0 ∧
      (reset pre i).bounds_.s_min = (pre i).1 ∧
      (reset pre i).rho_relaxation_numerator = 0 ∧
      (reset pre i).rho_relaxation_denominator = 0 ∧
      (reset pre i).s_interp_max = 0 :=
  ⟨rfl, rfl, rfl, rfl, rfl, rfl⟩

/-! ### Claim about the relaxation denominator -/

/-- Claim C10: the epsilon-guarded denominator
`abs(rho_relaxation_denominator) + eps` is strictly positive for every
accumulator state, and in particular right after `reset` (zero
accumulate calls, denominator `0`) it equals the machine epsilon. -/
theorem claim_C10_relaxation_denominator_positive :
    (∀ st : LimiterState, 0 < relaxationDenominator st) ∧
      (∀ (pre : ℕ → ℝ × ℝ) (i : ℕ),
        (reset pre i).rho_relaxation_denominator = 0 ∧
          relaxationDenominator (reset pre i) = machineEps ∧
          0 < machineEps) := by
  have heps : (0 : ℝ) < machineEps := by unfold machineEps; positivity
  constructor
  · intro st
    have h2 : (0 : ℝ) ≤ |st.rho_relaxation_denominator| := abs_nonneg _
    unfold relaxationDenominator
    linarith
  · intro pre i
    refine ⟨rfl, ?_, heps⟩
    unfold relaxationDenominator reset
    simp

/-! ### Claim about the mesh adaptor strategy dispatch -/

/-- Claim C9, counterexample: invoked with the unrecognized marking
strategy value `99` while the adaptation strategy is
`global_refinement`, `mark_cells_for_coarsening_and_refinement` marks
all cells and returns early — it does not abort; likewise `prepare`
invoked with the unrecognized time-point-selection strategy value `7`
does nothing and returns normally. -/
theorem claim_C9_unrecognized_strategy_no_abort :
    mark_cells_for_coarsening_and_refinement .global_refinement
        (.invalid 99) = .refine_all ∧
      MarkOutcome.refine_all ≠ MarkOutcome.abort ∧
      prepare (.invalid 7) 0 [] = some ([], false) :=
  ⟨rfl, by decide, rfl⟩

/-- Claim C9, amended: `analyze` aborts on every unrecognized
time-point-selection strategy, and `mark_cells_for_coarsening_and_refinement`
aborts on every unrecognized adaptation strategy, and on an unrecognized
marking strategy when the adaptation strategy is `random_adaptation`;
but `prepare` does nothing and continues on an unrecognized time-point
strategy, and under `global_refinement` the marking strategy is never
inspected because of the early return. -/
theorem claim_C9_strategy_dispatch :
    (∀ (v : ℕ) (t : ℝ) (pts : List ℝ) (need : Bool),
        analyze (.invalid v) t pts need = none) ∧
      (∀ (v : ℕ) (mrk : MarkingStrategy),
        mark_cells_for_coarsening_and_refinement (.invalid v) mrk =
          .abort) ∧
      (∀ v : ℕ,
        mark_cells_for_coarsening_and_refinement .random_adaptation
          (.invalid v) = .abort) ∧
      (∀ (v : ℕ) (t : ℝ) (pts : List ℝ),
        prepare (.invalid v) t pts = some (pts, false)) ∧
      (∀ v : ℕ,
        mark_cells_for_coarsening_and_refinement .global_refinement
          (.invalid v) = .refine_all) :=
  ⟨fun _ _ _ _ => rfl, fun _ _ => rfl, fun _ => rfl, fun _ _ _ => rfl,
    fun _ => rfl⟩

/-! ### Claim about `apply_relaxation` -/

/-- In one dimension the relaxation radius is
`factor * hd ^ (3/2)`. -/
theorem relaxation_r_one (hd factor : ℝ) (h : 0 ≤ hd) :
    relaxation_r 1 hd factor = factor * hd ^ ((3 : ℝ) / 2) := by
  unfold relaxation_r
  norm_num
  rw [Real.sqrt_eq_rpow, ← Real.rpow_natCast (hd ^ ((1 : ℝ) / 2)) 3,
    ← Real.rpow_mul h, mul_comm]
  norm_num

/-- In two dimensions the relaxation radius is
`factor * hd ^ (3/4)`. -/
theorem relaxation_r_two (hd factor : ℝ) (h : 0 ≤ hd) :
    relaxation_r 2 hd factor = factor * hd ^ ((3 : ℝ) / 4) := by
  unfold relaxation_r
  norm_num
  rw [Real.sqrt_eq_rpow, Real.sqrt_eq_rpow, ← Real.rpow_mul h,
    ← Real.rpow_natCast (hd ^ ((1 : ℝ) / 2 * (1 / 2))) 3, ← Real.rpow_mul h,
    mul_comm]
  norm_num

/-- In three dimensions the relaxation radius is
`factor * hd ^ (1/2)`. -/
theorem relaxation_r_three (hd factor : ℝ) (_h : 0 ≤ hd) :
    relaxation_r 3 hd factor = factor * hd ^ ((1 : ℝ) / 2) := by
  unfold relaxation_r
  norm_num
  rw [Real.sqrt_eq_rpow, mul_comm]

/-- Claim C3: `apply_relaxation(hd, factor)` computes the relaxation
radius `r = factor * hd ^ (3 / (2 d))` (exponent `3/2`, `3/4`, `1/2`
for `d = 1, 2, 3`), the relaxation magnitude
`m = abs(numerator) / (abs(denominator) + eps)` with `eps` the machine
epsilon, and widens the bounds as
`rho_min = max((1 - r) rho_min, rho_min - 2 m)`,
`rho_max = min((1 + r) rho_max, rho_max + 2 m)`,
`s_min = max((1 - r) s_min, 2 s_min - s_interp_max)`. -/
theorem claim_C3_apply_relaxation_formula (d : ℕ) (st : LimiterState)
    (hd factor : ℝ) (hdim : d = 1 ∨ d = 2 ∨ d = 3) (hhd : 0 ≤ hd) :
    relaxation_r d hd factor = factor * hd ^ ((3 : ℝ) / (2 * (d : ℝ))) ∧
      rho_relaxation st =
        |st.rho_relaxation_numerator| /
          (|st.rho_relaxation_denominator| + machineEps) ∧
      (apply_relaxation d st hd factor).bounds_.rho_min =
        max ((1 - relaxation_r d hd factor) * st.bounds_.rho_min)
          (st.bounds_.rho_min - 2 * rho_relaxation st) ∧
      (apply_relaxation d st hd factor).bounds_.rho_max =
        min ((1 + relaxation_r d hd factor) * st.bounds_.rho_max)
          (st.bounds_.rho_max + 2 * rho_relaxation st) ∧
      (apply_relaxation d st hd factor).bounds_.s_min =
        max ((1 - relaxation_r d hd factor) * st.bounds_.s_min)
          (2 * st.bounds_.s_min - st.s_interp_max) := by
  refine ⟨?_, rfl, rfl, rfl, rfl⟩
  rcases hdim with rfl | rfl | rfl
  · rw [relaxation_r_one hd factor hhd]; norm_num
  · rw [relaxation_r_two hd factor hhd]; norm_num
  · rw [relaxation_r_three hd factor hhd]; norm_num

/-- Witness for claim C3 at `d = 1`, `hd = 1`, `factor = 2`, on the
state produced by `reset`. -/
theorem claim_C3_apply_relaxation_formula_witness :
    ((1 : ℕ) = 1 ∨ (1 : ℕ) = 2 ∨ (1 : ℕ) = 3) ∧ (0 : ℝ) ≤ 1 ∧
      (relaxation_r 1 1 2 =
          2 * (1 : ℝ) ^ ((3 : ℝ) / (2 * ((1 : ℕ) : ℝ))) ∧
        rho_relaxation (reset pre0 0) =
          |(reset pre0 0).rho_relaxation_numerator| /
            (|(reset pre0 0).rho_relaxation_denominator| + machineEps) ∧
        (apply_relaxation 1 (reset pre0 0) 1 2).bounds_.rho_min =
          max ((1 - relaxation_r 1 1 2) * (reset pre0 0).bounds_.rho_min)
            ((reset pre0 0).bounds_.rho_min -
              2 * rho_relaxation (reset pre0 0)) ∧
        (apply_relaxation 1 (reset pre0 0) 1 2).bounds_.rho_max =
          min ((1 + relaxation_r 1 1 2) * (reset pre0 0).bounds_.rho_max)
            ((reset pre0 0).bounds_.rho_max +
              2 * rho_relaxation (reset pre0 0)) ∧
        (apply_relaxation 1 (reset pre0 0) 1 2).bounds_.s_min =
          max ((1 - relaxation_r 1 1 2) * (reset pre0 0).bounds_.s_min)
            (2 * (reset pre0 0).bounds_.s_min -
              (reset pre0 0).s_interp_max)) :=
  ⟨Or.inl rfl, by norm_num,
    claim_C3_apply_relaxation_formula 1 (reset pre0 0) 1 2 (Or.inl rfl)
      (by norm_num)⟩

/-! ### Ordering of the relaxed bounds -/

/-- The machine epsilon constant is strictly positive. -/
theorem machineEps_pos : (0 : ℝ) < machineEps := by
  unfold machineEps; positivity

/-- The largest-finite-double constant is strictly positive. -/
theorem scalarMax_pos : (0 : ℝ) < scalarMax := by
  unfold scalarMax; norm_num

/-- The epsilon-guarded relaxation denominator is strictly positive. -/
theorem relaxationDenominator_pos (st : LimiterState) :
    0 < relaxationDenominator st := by
  have h2 : (0 : ℝ) ≤ |st.rho_relaxation_denominator| := abs_nonneg _
  have := machineEps_pos
  unfold relaxationDenominator
  linarith

/-- The relaxation magnitude is nonnegative. -/
theorem rho_relaxation_nonneg (st : LimiterState) : 0 ≤ rho_relaxation st :=
  div_nonneg (abs_nonneg _) (relaxationDenominator_pos st).le

/-- The relaxation radius is nonnegative whenever the factor is. -/
theorem relaxation_r_nonneg (d : ℕ) (hd factor : ℝ) (hfac : 0 ≤ factor) :
    0 ≤ relaxation_r d hd factor := by
  unfold relaxation_r
  have h0 : (0 : ℝ) ≤ Real.sqrt hd := Real.sqrt_nonneg hd
  have h1 : (0 : ℝ) ≤ Real.sqrt hd ^ 3 := by positivity
  have h2 : (0 : ℝ) ≤ Real.sqrt (Real.sqrt hd) ^ 3 := by positivity
  split_ifs <;> exact mul_nonneg (by assumption) hfac

/-- `apply_relaxation` keeps `rho_min ≤ rho_max` when the pre-relaxation
bounds are ordered and the lower one is nonnegative. -/
theorem apply_relaxation_rho_le (d : ℕ) (st : LimiterState)
    (hd factor : ℝ) (hfac : 0 ≤ factor) (h0 : 0 ≤ st.bounds_.rho_min)
    (hle : st.bounds_.rho_min ≤ st.bounds_.rho_max) :
    (apply_relaxation d st hd factor).bounds_.rho_min ≤
      (apply_relaxation d st hd factor).bounds_.rho_max := by
  have hr : 0 ≤ relaxation_r d hd factor :=
    relaxation_r_nonneg d hd factor hfac
  have hm : 0 ≤ rho_relaxation st := rho_relaxation_nonneg st
  have hM : 0 ≤ st.bounds_.rho_max := h0.trans hle
  show max ((1 - relaxation_r d hd factor) * st.bounds_.rho_min)
        (st.bounds_.rho_min - 2 * rho_relaxation st) ≤
      min ((1 + relaxation_r d hd factor) * st.bounds_.rho_max)
        (st.bounds_.rho_max + 2 * rho_relaxation st)
  have h1 : (1 - relaxation_r d hd factor) * st.bounds_.rho_min ≤
      st.bounds_.rho_min := by nlinarith [mul_nonneg hr h0]
  have h2 : st.bounds_.rho_min - 2 * rho_relaxation st ≤
      st.bounds_.rho_min := by linarith
  have h3 : st.bounds_.rho_max ≤
      (1 + relaxation_r d hd factor) * st.bounds_.rho_max := by
    nlinarith [mul_nonneg hr hM]
  have h4 : st.bounds_.rho_max ≤
      st.bounds_.rho_max + 2 * rho_relaxation st := by linarith
  exact max_le (le_min ((h1.trans hle).trans h3) ((h1.trans hle).trans h4))
    (le_min ((h2.trans hle).trans h3) ((h2.trans hle).trans h4))

/-- A chain of `accumulate` calls never raises `rho_min`. -/
theorem runAccumulate_rho_min_le {d : ℕ} (hs : HyperbolicSystemView d)
    (pre : ℕ → ℝ × ℝ) (l : List (AccumulateArgs d)) :
    ∀ st : LimiterState,
      (runAccumulate hs pre st l).bounds_.rho_min ≤ st.bounds_.rho_min := by
  induction l with
  | nil => intro st; exact le_refl _
  | cons a t ih => intro st; exact (ih _).trans (min_le_left _ _)

/-- A chain of `accumulate` calls never lowers `rho_max`. -/
theorem runAccumulate_rho_max_ge {d : ℕ} (hs : HyperbolicSystemView d)
    (pre : ℕ → ℝ × ℝ) (l : List (AccumulateArgs d)) :
    ∀ st : LimiterState,
      st.bounds_.rho_max ≤ (runAccumulate hs pre st l).bounds_.rho_max := by
  induction l with
  | nil => intro st; exact le_refl _
  | cons a t ih =>
      intro st
      have h1 : st.bounds_.rho_max ≤
          (accumulate hs pre st a).bounds_.rho_max := le_max_left _ _
      exact h1.trans (ih (accumulate hs pre st a))

/-- Every accumulated edge density estimate ends up between the final
pre-relaxation `rho_min` and `rho_max`. -/
theorem runAccumulate_mem_bounds {d : ℕ} (hs : HyperbolicSystemView d)
    (pre : ℕ → ℝ × ℝ) (a : AccumulateArgs d) :
    ∀ l : List (AccumulateArgs d), a ∈ l → ∀ st : LimiterState,
      (runAccumulate hs pre st l).bounds_.rho_min ≤ rho_ij_bar a ∧
        rho_ij_bar a ≤ (runAccumulate hs pre st l).bounds_.rho_max := by
  intro l
  induction l with
  | nil => intro ha; cases ha
  | cons b t ih =>
      intro ha st
      rcases List.mem_cons.mp ha with rfl | ha'
      · constructor
        · exact (runAccumulate_rho_min_le hs pre t _).trans
            (min_le_right _ _)
        · have h1 : rho_ij_bar a ≤
              (accumulate hs pre st a).bounds_.rho_max := le_max_right _ _
          exact h1.trans (runAccumulate_rho_max_ge hs pre t
            (accumulate hs pre st a))
      · exact ih ha' _

/-- `rho_min` stays nonnegative along `accumulate` calls whose edge
density estimates are all nonnegative. -/
theorem runAccumulate_rho_min_nonneg {d : ℕ} (hs : HyperbolicSystemView d)
    (pre : ℕ → ℝ × ℝ) (l : List (AccumulateArgs d)) :
    ∀ st : LimiterState, 0 ≤ st.bounds_.rho_min →
      (∀ a ∈ l, 0 ≤ rho_ij_bar a) →
      0 ≤ (runAccumulate hs pre st l).bounds_.rho_min := by
  induction l with
  | nil => intro st h _; exact h
  | cons a t ih =>
      intro st h hl
      refine ih _ ?_ fun b hb => hl b (List.mem_cons_of_mem _ hb)
      exact le_min h (hl a (List.mem_cons_self _ _))

/-- Claim C4, counterexample: after `reset` followed by zero
`accumulate` calls, `apply_relaxation` (with `hd = 1`, `factor = 2`)
leaves `rho_max = 0` strictly below
`rho_min = numeric_limits<ScalarNumber>::max()`. -/
theorem claim_C4_zero_accumulates_inverted_bounds :
    (apply_relaxation 1 (reset pre0 0) 1 2).bounds_.rho_max <
      (apply_relaxation 1 (reset pre0 0) 1 2).bounds_.rho_min := by
  have hrel : rho_relaxation (reset pre0 0) = 0 := by
    unfold rho_relaxation
    show |(0 : ℝ)| / _ = 0
    simp
  have hr : relaxation_r 1 1 2 = 2 := by
    unfold relaxation_r
    norm_num [Real.sqrt_one]
  have hmax : (apply_relaxation 1 (reset pre0 0) 1 2).bounds_.rho_max = 0 := by
    show min ((1 + relaxation_r 1 1 2) * 0) (0 + 2 * rho_relaxation (reset pre0 0)) = 0
    rw [hrel]
    norm_num
  have hmin : (apply_relaxation 1 (reset pre0 0) 1 2).bounds_.rho_min =
      scalarMax := by
    show max ((1 - relaxation_r 1 1 2) * scalarMax)
        (scalarMax - 2 * rho_relaxation (reset pre0 0)) = scalarMax
    rw [hrel, hr]
    have h1 : (1 - (2 : ℝ)) * scalarMax ≤ scalarMax - 2 * 0 := by
      nlinarith [scalarMax_pos]
    rw [max_eq_right h1]
    ring
  rw [hmax, hmin]
  exact scalarMax_pos

/-- Claim C4, amended: for every sequence `reset` → at least one
`accumulate` → `apply_relaxation`, if every accumulated edge density
estimate is nonnegative and the relaxation factor is nonnegative, the
finalized bounds satisfy `rho_min ≤ rho_max`. -/
theorem claim_C4_relaxed_bounds_ordered {d : ℕ}
    (hs : HyperbolicSystemView d) (pre : ℕ → ℝ × ℝ) (i : ℕ)
    (l : List (AccumulateArgs d)) (hd factor : ℝ) (hfac : 0 ≤ factor)
    (hne : l ≠ []) (hnn : ∀ a ∈ l, 0 ≤ rho_ij_bar a) :
    (apply_relaxation d (runAccumulate hs pre (reset pre i) l) hd
        factor).bounds_.rho_min ≤
      (apply_relaxation d (runAccumulate hs pre (reset pre i) l) hd
        factor).bounds_.rho_max := by
  obtain ⟨a, t, rfl⟩ := List.exists_cons_of_ne_nil hne
  apply apply_relaxation_rho_le _ _ _ _ hfac
  · exact runAccumulate_rho_min_nonneg hs pre _ _ scalarMax_pos.le hnn
  · have h := runAccumulate_mem_bounds hs pre a (a :: t)
      (List.mem_cons_self a t) (reset pre i)
    exact h.1.trans h.2

/-- The edge density estimate of the first concrete accumulate call. -/
theorem rho_ij_bar_acc1 : rho_ij_bar acc1 = 3 / 4 := by
  simp [rho_ij_bar, tensorDot, density, momentum, acc1, U_a, U_b, cHalf,
    Fin.sum_univ_one]
  norm_num

/-- The edge density estimate of the second concrete accumulate call. -/
theorem rho_ij_bar_acc2 : rho_ij_bar acc2 = 5 / 4 := by
  simp [rho_ij_bar, tensorDot, density, momentum, acc2, U_a, U_b, cHalf,
    Fin.sum_univ_one]
  norm_num

/-- Witness for the amended claim C4 on the singleton call list
`[acc1]` with `hd = 1`, `factor = 2`. -/
theorem claim_C4_relaxed_bounds_ordered_witness :
    (0 : ℝ) ≤ 2 ∧ [acc1] ≠ ([] : List (AccumulateArgs 1)) ∧
      (∀ a ∈ [acc1], 0 ≤ rho_ij_bar a) ∧
      (apply_relaxation 1 (runAccumulate hs0 pre0 (reset pre0 0) [acc1]) 1
          2).bounds_.rho_min ≤
        (apply_relaxation 1 (runAccumulate hs0 pre0 (reset pre0 0) [acc1])
          1 2).bounds_.rho_max :=
  ⟨by norm_num, by simp,
    fun a ha => by
      rcases List.mem_singleton.mp ha with rfl
      rw [rho_ij_bar_acc1]; norm_num,
    claim_C4_relaxed_bounds_ordered hs0 pre0 0 [acc1] 1 2 (by norm_num)
      (by simp)
      fun a ha => by
        rcases List.mem_singleton.mp ha with rfl
        rw [rho_ij_bar_acc1]; norm_num⟩

/-! ### Claim about the accumulate step and the concrete scenario -/

/-- Claim C6: each `accumulate` call computes the symmetrized edge
density estimate and widens `rho_min`/`rho_max` to include it; in the
concrete one-dimensional scenario (densities `1`, momenta `0` and `1`,
edge coefficient `0.5`, weight `1`) the pre-relaxation bounds are
exactly `rho_min = 0.75` and `rho_max = 1.25`. -/
theorem claim_C6_accumulate_widens_bounds :
    (∀ (d : ℕ) (hs : HyperbolicSystemView d) (pre : ℕ → ℝ × ℝ)
        (st : LimiterState) (a : AccumulateArgs d),
      (accumulate hs pre st a).bounds_.rho_min =
          min st.bounds_.rho_min (rho_ij_bar a) ∧
        (accumulate hs pre st a).bounds_.rho_max =
          max st.bounds_.rho_max (rho_ij_bar a) ∧
        (accumulate hs pre st a).bounds_.rho_min ≤ rho_ij_bar a ∧
        rho_ij_bar a ≤ (accumulate hs pre st a).bounds_.rho_max) ∧
      (runAccumulate hs0 pre0 (reset pre0 0)
          [acc1, acc2]).bounds_.rho_min = 3 / 4 ∧
      (runAccumulate hs0 pre0 (reset pre0 0)
          [acc1, acc2]).bounds_.rho_max = 5 / 4 := by
  refine ⟨fun d hs pre st a =>
    ⟨rfl, rfl, min_le_right _ _, le_max_right _ _⟩, ?_, ?_⟩
  · show min (min scalarMax (rho_ij_bar acc1)) (rho_ij_bar acc2) = 3 / 4
    rw [rho_ij_bar_acc1, rho_ij_bar_acc2]
    have h1 : (3 / 4 : ℝ) ≤ scalarMax := by unfold scalarMax; norm_num
    rw [min_eq_right h1, min_eq_left (by norm_num : (3 / 4 : ℝ) ≤ 5 / 4)]
  · show max (max 0 (rho_ij_bar acc1)) (rho_ij_bar acc2) = 5 / 4
    rw [rho_ij_bar_acc1, rho_ij_bar_acc2]
    rw [max_eq_right (by norm_num : (0 : ℝ) ≤ 3 / 4),
      max_eq_right (by norm_num : (3 / 4 : ℝ) ≤ 5 / 4)]

/-! ### Claim about permutation invariance of accumulation -/

/-- Right-commutativity of the binary `max`. -/
theorem max_right_comm (x a b : ℝ) : max (max x a) b = max (max x b) a := by
  rw [max_assoc, max_comm a b, ← max_assoc]

/-- Two `accumulate` calls commute: every field update is a fold of a
commutative operation (`min`, `max`, `+`). -/
theorem accumulate_right_comm {d : ℕ} (hs : HyperbolicSystemView d)
    (pre : ℕ → ℝ × ℝ) (st : LimiterState) (a b : AccumulateArgs d) :
    accumulate hs pre (accumulate hs pre st a) b =
      accumulate hs pre (accumulate hs pre st b) a := by
  unfold accumulate
  simp only [LimiterState.mk.injEq, Bounds.mk.injEq]
  refine ⟨⟨?_, ?_, ?_⟩, ?_, ?_, ?_⟩
  · exact min_right_comm _ _ _
  · exact max_right_comm _ _ _
  · exact min_right_comm _ _ _
  · exact add_right_comm _ _ _
  · exact add_right_comm _ _ _
  · exact max_right_comm _ _ _

/-- Claim C8: permuted `accumulate` sequences applied after the same
`reset` state produce identical accumulator states, and hence identical
bounds after `apply_relaxation`. -/
theorem claim_C8_accumulate_order_irrelevant {d : ℕ}
    (hs : HyperbolicSystemView d) (pre : ℕ → ℝ × ℝ)
    (l1 l2 : List (AccumulateArgs d)) (hperm : l1.Perm l2)
    (st0 : LimiterState) (hd factor : ℝ) :
    runAccumulate hs pre st0 l1 = runAccumulate hs pre st0 l2 ∧
      apply_relaxation d (runAccumulate hs pre st0 l1) hd factor =
        apply_relaxation d (runAccumulate hs pre st0 l2) hd factor := by
  haveI : RightCommutative (accumulate hs pre) :=
    ⟨fun s a b => accumulate_right_comm hs pre s a b⟩
  have h : runAccumulate hs pre st0 l1 = runAccumulate hs pre st0 l2 :=
    hperm.foldl_eq st0
  exact ⟨h, by rw [h]⟩

/-- Witness for claim C8 on the two-element list `[acc1, acc2]` and its
swap, after `reset` at node `0`, with `hd = 1`, `factor = 2`. -/
theorem claim_C8_accumulate_order_irrelevant_witness :
    List.Perm [acc1, acc2] [acc2, acc1] ∧
      (runAccumulate hs0 pre0 (reset pre0 0) [acc1, acc2] =
          runAccumulate hs0 pre0 (reset pre0 0) [acc2, acc1] ∧
        apply_relaxation 1
            (runAccumulate hs0 pre0 (reset pre0 0) [acc1, acc2]) 1 2 =
          apply_relaxation 1
            (runAccumulate hs0 pre0 (reset pre0 0) [acc2, acc1]) 1 2) :=
  ⟨List.Perm.swap acc2 acc1 [],
    claim_C8_accumulate_order_irrelevant hs0 pre0 [acc1, acc2]
      [acc2, acc1] (List.Perm.swap acc2 acc1 []) (reset pre0 0) 1 2⟩

/-! ### Claim about the range of the limiter coefficient -/

/-- Claim C7: for every input with `t_min ≤ t_max` the returned
coefficient lies in `[t_min, t_max]` (step 3 of the spec's algorithm
clamps the Newton result to that interval). -/
theorem claim_C7_limit_range {d : ℕ} (hs : HyperbolicSystemView d)
    (gamma : ℝ) (b : Bounds) (U P : EulerState d) (dPsi : ℝ → ℝ)
    (tol : ℝ) (maxit : ℕ) (t_min t_max : ℝ) (h : t_min ≤ t_max) :
    t_min ≤ (limit hs gamma b U P dPsi tol maxit t_min t_max).1 ∧
      (limit hs gamma b U P dPsi tol maxit t_min t_max).1 ≤ t_max := by
  constructor
  · exact le_max_left _ _
  · exact max_le h (min_le_left _ _)

/-- Witness for claim C7 at the concrete bounds `{0.9, 1.1, 2.0}`, the
states of the concrete scenario, and `[t_min, t_max] = [0, 1]`. -/
theorem claim_C7_limit_range_witness :
    (0 : ℝ) ≤ 1 ∧
      ((0 : ℝ) ≤
          (limit hs0 (7 / 5) bounds0 U_a U_b (fun _ => 0) (1 / 1000) 10 0
            1).1 ∧
        (limit hs0 (7 / 5) bounds0 U_a U_b (fun _ => 0) (1 / 1000) 10 0
            1).1 ≤ 1) :=
  ⟨by norm_num,
    claim_C7_limit_range hs0 (7 / 5) bounds0 U_a U_b (fun _ => 0)
      (1 / 1000) 10 0 1 (by norm_num)⟩

end Ryujin
